import Mathlib

set_option maxHeartbeats 1000000

/-!
Shallow embedding of the Ollama streaming-chat relay
(`app_streaming.py`) and the LangGraph agent node (`chat_agent.py`).

The external session store (Redis) is modelled as a pair of association
lists holding the JSON-decoded values of the keys `context:{sid}`
(a JSON-encoded integer list) and `session:{sid}` (a Redis list of
JSON-encoded `{role, content}` objects).  A Redis list key exists iff
the list is non-empty, which `list_conversations` relies on.
-/

namespace OllamaRelay

/-- One entry of a session's message log: a `{role, content}` object. -/
structure Message where
  role : String
  content : String
deriving Repr, DecidableEq

/-- State of the external store: decoded `context:{sid}` and
`session:{sid}` keys, keyed by session id. -/
structure Store where
  contexts : List (String × List Int)
  sessions : List (String × List Message)
deriving Repr, DecidableEq

/-- A store in which no key has ever been written. -/
def emptyStore : Store := ⟨[], []⟩

/-- Lookup in an association list (first binding wins). -/
def assocGet {α : Type} : List (String × α) → String → Option α
  | [], _ => none
  | (k', v) :: rest, k => if k' = k then some v else assocGet rest k

/-- Write a binding in an association list, replacing an existing one. -/
def assocSet {α : Type} : List (String × α) → String → α → List (String × α)
  | [], k, v => [(k, v)]
  | (k', v') :: rest, k, v =>
      if k' = k then (k, v) :: rest else (k', v') :: assocSet rest k v

/-- Remove a binding from an association list (`DEL key`). -/
def assocErase {α : Type} (l : List (String × α)) (k : String) : List (String × α) :=
  l.filter (fun p => decide (p.1 ≠ k))

/-- `get_context`: `r.get(f"context:{session_id}")`, JSON-decoded;
a missing key yields `None`. -/
def get_context (st : Store) (session_id : String) : Option (List Int) :=
  assocGet st.contexts session_id

/-- `set_context`: `r.set(f"context:{session_id}", json.dumps(context))`. -/
def set_context (st : Store) (session_id : String) (context : List Int) : Store :=
  { st with contexts := assocSet st.contexts session_id context }

/-- `append_message`: `r.rpush(f"session:{session_id}", json.dumps(msg))` —
appends to the list, creating the key when absent. -/
def append_message (st : Store) (session_id role content : String) : Store :=
  { st with
    sessions := assocSet st.sessions session_id
      ((assocGet st.sessions session_id).getD [] ++ [⟨role, content⟩]) }

/-- `get_conversation`: `r.lrange(f"session:{session_id}", 0, -1)` decoded;
a missing key yields the empty list. -/
def get_conversation (st : Store) (session_id : String) : List Message :=
  (assocGet st.sessions session_id).getD []

/-- Python `str.split(sep)` on the character list: splits at every
occurrence of `sep`, keeping empty segments. -/
def splitChar (sep : Char) : List Char → List Char → List (List Char)
  | [], acc => [acc.reverse]
  | c :: cs, acc =>
      if c = sep then acc.reverse :: splitChar sep cs []
      else splitChar sep cs (c :: acc)

/-- `k.split(":")[1]` for a key `k = f"session:{session_id}"`: the
segment between the first and the second colon of the full key, i.e.
the session id truncated at its first colon. -/
def listedName (session_id : String) : String :=
  String.mk ((splitChar ':' ("session:" ++ session_id).toList []).getD 1 [])

/-- `list_conversations`: `[k.split(":")[1] for k in r.keys("session:*")]`.
A Redis list key exists exactly when its list is non-empty. -/
def list_conversations (st : Store) : List String :=
  (st.sessions.filter (fun p => decide (p.2 ≠ []))).map (fun p => listedName p.1)

/-- `r.delete(f"session:{sid}", f"context:{sid}")`, idempotent. -/
def delete_session (st : Store) (session_id : String) : Store :=
  { contexts := assocErase st.contexts session_id,
    sessions := assocErase st.sessions session_id }

/-- A generation event: the JSON object parsed from one NDJSON line of
the backend stream, restricted to the fields the relay reads.
`none` models an absent field (and, for `context`, also JSON `null`,
which `data.get("context")` likewise turns into `None`). -/
structure GenEvent where
  response : Option String
  done : Option Bool
  context : Option (List Int)
deriving Repr, DecidableEq

/-- One line delivered by the backend transport: whitespace-only,
non-JSON-parseable noise, or a parseable generation event. -/
inductive Line where
  | blank : Line
  | junk : Line
  | event : GenEvent → Line
deriving Repr, DecidableEq

/-- The generation event carried by a line, if it parses as JSON. -/
def lineEvent : Line → Option GenEvent
  | .blank => none
  | .junk => none
  | .event e => some e

/-- Whether a line is a parseable event whose `done` field is truthy
(`data.get("done")`: absent means falsy). -/
def lineDone : Line → Bool
  | .event e => e.done.getD false
  | _ => false

/-- Default of the `OLLAMA_MODEL` environment option. -/
def OLLAMA_MODEL : String := "phi3"

/-- The JSON payload `stream_from_ollama` POSTs to `/api/generate`. -/
structure Payload where
  model : String
  prompt : String
  stream : Bool
  context : Option (List Int)
deriving Repr, DecidableEq

/-- `if context: payload["context"] = context` — the field is included
only when the argument is a truthy (non-`None`, non-empty) list. -/
def truthyCtx : Option (List Int) → Option (List Int)
  | some c => if c = [] then none else some c
  | none => none

/-- The request payload built by `stream_from_ollama`. -/
def stream_from_ollama_payload (prompt : String) (context : Option (List Int)) : Payload :=
  { model := OLLAMA_MODEL, prompt := prompt, stream := true, context := truthyCtx context }

/-- The lines `stream_from_ollama` yields: the transport's lines with
whitespace-only lines skipped (`if not line.strip(): continue`). -/
def stream_from_ollama_output (backendLines : List Line) : List Line :=
  backendLines.filter (fun l => decide (l ≠ Line.blank))

/-- Python `str.strip()` over the ASCII whitespace characters. -/
def pyIsSpace (c : Char) : Bool :=
  c = ' ' || c = '\t' || c = '\n' || c = '\r' || c = '\x0b' || c = '\x0c'

/-- Python `str.strip()`. -/
def pyStrip (s : String) : String :=
  String.mk (((s.toList.dropWhile pyIsSpace).reverse.dropWhile pyIsSpace).reverse)

/-- The store writes performed inside `event_generator` for one parsed
event: on a truthy `done`, write `data.get("context")` when truthy
(non-`None`, non-empty) and append the terminal event's
`data.get("response", "")` as the assistant message. -/
def commit_if_done (session_id : String) (st : Store) (data : GenEvent) : Store :=
  if data.done.getD false then
    let st1 :=
      match data.context with
      | some new_context =>
          if new_context = [] then st else set_context st session_id new_context
      | none => st
    append_message st1 session_id "assistant" (data.response.getD "")
  else st

/-- `event_generator`: for each line, try to parse it (a parse failure
is `continue`), yield one SSE frame carrying the event's JSON encoding,
then perform the `done`-commit writes.  Returns the frames in emission
order together with the final store. -/
def event_generator (session_id : String) (st : Store) : List Line → List GenEvent × Store
  | [] => ([], st)
  | l :: rest =>
      match lineEvent l with
      | none => event_generator session_id st rest
      | some data =>
          let st1 := commit_if_done session_id st data
          let (frames, st2) := event_generator session_id st1 rest
          (data :: frames, st2)

/-- The HTTP response of `POST /chat/stream`: either the 400
`{"error": "Empty message"}` JSON response, or the SSE stream, one
frame per event in order. -/
inductive HttpResponse where
  | badRequest (error : String)
  | sse (frames : List GenEvent)
deriving Repr, DecidableEq

/-- Everything observable about one call of the `chat_stream` handler:
the HTTP response, the store after the turn, the request payload sent
to the backend (if any), and the log lines produced (the handler
contains no logging statement). -/
structure TurnOut where
  response : HttpResponse
  store : Store
  request : Option Payload
  logs : List String
deriving Repr, DecidableEq

/-- `chat_stream`: validate the stripped message, append the user
message, read the prior context, stream from the backend relaying each
parseable event, committing on `done`.  `message` is
`body.get("message", "")` (`none` models an absent field);
`backendLines` are the lines the transport delivers before the stream
ends or fails. -/
def chat_stream (st : Store) (session_id : String) (message : Option String)
    (backendLines : List Line) : TurnOut :=
  let prompt := pyStrip (message.getD "")
  if prompt = "" then
    { response := .badRequest "Empty message", store := st, request := none, logs := [] }
  else
    let st1 := append_message st session_id "user" prompt
    let existing_context := get_context st1 session_id
    let out := event_generator session_id st1 (stream_from_ollama_output backendLines)
    { response := .sse out.1, store := out.2,
      request := some (stream_from_ollama_payload prompt existing_context), logs := [] }

/-- `POST /new_conversation` with the freshly generated uuid
`session_id`: delete both keys, then append the system message. -/
def new_conversation (st : Store) (session_id : String) : Store :=
  append_message (delete_session st session_id) session_id "system"
    "New conversation started."

/-- Any single session-store mutation the application performs. -/
inductive StoreOp where
  | setCtx (session_id : String) (context : List Int)
  | append (session_id role content : String)
  | del (session_id : String)
deriving Repr, DecidableEq

/-- The session id a store operation touches. -/
def StoreOp.sid : StoreOp → String
  | .setCtx s _ => s
  | .append s _ _ => s
  | .del s => s

/-- Apply one store operation. -/
def applyOp (st : Store) : StoreOp → Store
  | .setCtx s c => set_context st s c
  | .append s r c => append_message st s r c
  | .del s => delete_session st s

/-- Apply a sequence of store operations in order. -/
def applyOps (st : Store) (ops : List StoreOp) : Store :=
  ops.foldl applyOp st

/-! Embedding of `chat_agent.py`. -/

/-- The JSON object returned by the non-streaming
`OllamaClient.generate`, restricted to the fields `ollama_node` reads. -/
structure GenResult where
  response : Option String
  context : Option (List Int)
deriving Repr, DecidableEq

/-- The LangGraph `ChatState`. -/
structure ChatState where
  messages : List String
  context : Option (List Int)
deriving Repr, DecidableEq

/-- `ollama_node`, with the backend's reply supplied as an argument
(`result = ollama.generate(prompt=user_prompt, ...)`).  Reading
`state["messages"][-1]` raises `IndexError` on an empty list, modelled
as `none`; `result.get("context", previous_context)` defaults to the
previous context when the field is absent. -/
def ollama_node (state : ChatState) (result : GenResult) : Option ChatState :=
  match state.messages.getLast? with
  | none => none
  | some _user_prompt =>
      let reply := result.response.getD ""
      let new_context := result.context.or state.context
      some { messages := state.messages ++ [reply], context := new_context }

/-! Helper lemmas about the association-list store. -/

theorem assocGet_assocSet_self {α : Type} (l : List (String × α)) (k : String) (v : α) :
    assocGet (assocSet l k v) k = some v := by
  induction l with
  | nil => simp [assocSet, assocGet]
  | cons p rest ih =>
      obtain ⟨k', v'⟩ := p
      by_cases h : k' = k <;> simp [assocSet, assocGet, h, ih]

theorem assocGet_assocSet_ne {α : Type} (l : List (String × α)) (k s : String) (v : α)
    (h : k ≠ s) : assocGet (assocSet l k v) s = assocGet l s := by
  induction l with
  | nil => simp [assocSet, assocGet, h]
  | cons p rest ih =>
      obtain ⟨k', v'⟩ := p
      by_cases h' : k' = k
      · subst h'
        simp [assocSet, assocGet, h]
      · simp [assocSet, assocGet, h', ih]

theorem mem_assocSet {α : Type} {l : List (String × α)} {k : String} {v : α}
    {p : String × α} (h : p ∈ assocSet l k v) : p ∈ l ∨ p = (k, v) := by
  induction l with
  | nil =>
      simp [assocSet] at h
      exact Or.inr h
  | cons q rest ih =>
      obtain ⟨k', v'⟩ := q
      by_cases h' : k' = k
      · simp [assocSet, h'] at h
        rcases h with h | h
        · exact Or.inr (by simp [h])
        · exact Or.inl (by simp [h])
      · simp [assocSet, h'] at h
        rcases h with h | h
        · exact Or.inl (by simp [h])
        · rcases ih h with h'' | h''
          · exact Or.inl (by simp [h''])
          · exact Or.inr h''

theorem assocGet_eq_none_iff {α : Type} (l : List (String × α)) (s : String) :
    assocGet l s = none ↔ ∀ p ∈ l, p.1 ≠ s := by
  induction l with
  | nil => simp [assocGet]
  | cons p rest ih =>
      obtain ⟨k', v'⟩ := p
      by_cases h : k' = s <;> simp [assocGet, h, ih]

/-! Helper lemmas about the event loop. -/

theorem event_generator_append (session_id : String) (st : Store) (xs ys : List Line) :
    event_generator session_id st (xs ++ ys) =
      ((event_generator session_id st xs).1 ++
         (event_generator session_id (event_generator session_id st xs).2 ys).1,
       (event_generator session_id (event_generator session_id st xs).2 ys).2) := by
  induction xs generalizing st with
  | nil => simp [event_generator]
  | cons l rest ih =>
      cases l with
      | blank => simpa [event_generator, lineEvent] using ih st
      | junk => simpa [event_generator, lineEvent] using ih st
      | event e => simp [event_generator, lineEvent, ih]

theorem event_generator_store_no_done (session_id : String) (st : Store)
    (lines : List Line) (h : ∀ l ∈ lines, lineDone l = false) :
    (event_generator session_id st lines).2 = st := by
  induction lines generalizing st with
  | nil => rfl
  | cons l rest ih =>
      have hl := h l (by simp)
      have hrest : ∀ l' ∈ rest, lineDone l' = false := fun l' hl' => h l' (by simp [hl'])
      cases l with
      | blank => simpa [event_generator, lineEvent] using ih st hrest
      | junk => simpa [event_generator, lineEvent] using ih st hrest
      | event e =>
          simp [lineDone] at hl
          simp [event_generator, lineEvent, commit_if_done, hl]
          exact ih st hrest

theorem event_generator_frames (session_id : String) (st : Store) (lines : List Line) :
    (event_generator session_id st lines).1 = lines.filterMap lineEvent := by
  induction lines generalizing st with
  | nil => rfl
  | cons l rest ih =>
      cases l with
      | blank => simpa [event_generator, lineEvent] using ih st
      | junk => simpa [event_generator, lineEvent] using ih st
      | event e => simp [event_generator, lineEvent, ih]

/-- A non-blank, non-parseable line is invisible to the event loop. -/
theorem event_generator_drop_junk (session_id : String) (st : Store) (xs ys : List Line) :
    event_generator session_id st (xs ++ Line.junk :: ys) =
      event_generator session_id st (xs ++ ys) := by
  induction xs generalizing st with
  | nil => simp [event_generator, lineEvent]
  | cons l rest ih =>
      cases l with
      | blank => simpa [event_generator, lineEvent] using ih st
      | junk => simpa [event_generator, lineEvent] using ih st
      | event e => simp [event_generator, lineEvent, ih]

/-! Helper lemmas about individual store operations. -/

theorem contexts_append_message (st : Store) (sid role content : String) :
    (append_message st sid role content).contexts = st.contexts := rfl

theorem get_conversation_append_message_self (st : Store) (sid role content : String) :
    get_conversation (append_message st sid role content) sid =
      get_conversation st sid ++ [⟨role, content⟩] := by
  simp [get_conversation, append_message, assocGet_assocSet_self]

theorem get_context_append_message (st : Store) (sid sid' role content : String) :
    get_context (append_message st sid role content) sid' = get_context st sid' := rfl

theorem get_context_set_context_self (st : Store) (sid : String) (c : List Int) :
    get_context (set_context st sid c) sid = some c := by
  simp [get_context, set_context, assocGet_assocSet_self]

theorem assocGet_assocErase_self {α : Type} (l : List (String × α)) (k : String) :
    assocGet (assocErase l k) k = none := by
  rw [assocGet_eq_none_iff]
  intro p hp
  simpa using (List.mem_filter.mp hp).2

theorem assocGet_assocErase_of_none {α : Type} {l : List (String × α)} {s : String}
    (k : String) (h : assocGet l s = none) : assocGet (assocErase l k) s = none := by
  rw [assocGet_eq_none_iff] at h ⊢
  intro p hp
  exact h p (List.mem_of_mem_filter hp)

theorem self_mem_assocSet {α : Type} (l : List (String × α)) (k : String) (v : α) :
    (k, v) ∈ assocSet l k v := by
  induction l with
  | nil => simp [assocSet]
  | cons p rest ih =>
      obtain ⟨k', v'⟩ := p
      by_cases h : k' = k <;> simp [assocSet, h, ih]

/-- Splitting a list that does not contain the separator yields one
segment. -/
theorem splitChar_of_not_mem (sep : Char) (cs : List Char) (h : sep ∉ cs) :
    ∀ acc, splitChar sep cs acc = [acc.reverse ++ cs] := by
  induction cs with
  | nil => intro acc; simp [splitChar]
  | cons c cs ih =>
      intro acc
      have hc : ¬ c = sep := fun e => h (by simp [e])
      rw [splitChar, if_neg hc, ih (fun hm => h (List.mem_cons_of_mem _ hm))]
      simp

/-- A session id without a colon is listed unchanged. -/
theorem listedName_eq_self (s : String) (h : ':' ∉ s.toList) : listedName s = s := by
  have hkey : ("session:" ++ s).toList =
      's' :: 'e' :: 's' :: 's' :: 'i' :: 'o' :: 'n' :: ':' :: s.toList :=
    String.data_append _ _
  have hstep : splitChar ':' ('s' :: 'e' :: 's' :: 's' :: 'i' :: 'o' :: 'n' :: ':' :: s.toList) [] =
      ['s', 'e', 's', 's', 'i', 'o', 'n'] :: splitChar ':' s.toList [] := rfl
  rw [listedName, hkey, hstep, splitChar_of_not_mem ':' s.toList h []]
  rfl

/-- Every session key ever written comes from some operation's id. -/
theorem mem_sessions_applyOps (ops : List StoreOp) (st : Store)
    (p : String × List Message) (hp : p ∈ (applyOps st ops).sessions) :
    p ∈ st.sessions ∨ ∃ op ∈ ops, op.sid = p.1 := by
  induction ops generalizing st with
  | nil => exact Or.inl hp
  | cons op rest ih =>
      have hstep : applyOps st (op :: rest) = applyOps (applyOp st op) rest := rfl
      rw [hstep] at hp
      rcases ih (applyOp st op) hp with h | h
      · cases op with
        | setCtx k c => exact Or.inl h
        | append k role content =>
            rcases mem_assocSet h with h' | h'
            · exact Or.inl h'
            · exact Or.inr ⟨.append k role content, by simp, by simp [h', StoreOp.sid]⟩
        | del k => exact Or.inl (List.mem_of_mem_filter h)
      · obtain ⟨op', hop', hsid⟩ := h
        exact Or.inr ⟨op', by simp [hop'], hsid⟩

/-- Unfolding of `chat_stream` on a non-empty stripped message. -/
theorem chat_stream_of_ne (st : Store) (session_id : String) (message : Option String)
    (backendLines : List Line) (hp : pyStrip (message.getD "") ≠ "") :
    chat_stream st session_id message backendLines =
      { response := .sse (event_generator session_id
          (append_message st session_id "user" (pyStrip (message.getD "")))
          (stream_from_ollama_output backendLines)).1,
        store := (event_generator session_id
          (append_message st session_id "user" (pyStrip (message.getD "")))
          (stream_from_ollama_output backendLines)).2,
        request := some (stream_from_ollama_payload (pyStrip (message.getD ""))
          (get_context (append_message st session_id "user" (pyStrip (message.getD "")))
            session_id)),
        logs := [] } := by
  simp only [chat_stream]
  rw [if_neg hp]

/-- Blank-line filtering distributes over append. -/
theorem stream_from_ollama_output_append (xs ys : List Line) :
    stream_from_ollama_output (xs ++ ys) =
      stream_from_ollama_output xs ++ stream_from_ollama_output ys := by
  simp [stream_from_ollama_output, List.filter_append]

/-- An event line survives the blank filter. -/
theorem stream_from_ollama_output_event (e : GenEvent) :
    stream_from_ollama_output [Line.event e] = [Line.event e] := by
  simp [stream_from_ollama_output]

/-- Filtering out blanks does not change the parseable events. -/
theorem filterMap_lineEvent_stream_output (lines : List Line) :
    (stream_from_ollama_output lines).filterMap lineEvent = lines.filterMap lineEvent := by
  induction lines with
  | nil => rfl
  | cons l rest ih =>
      cases l with
      | blank =>
          simpa [stream_from_ollama_output, List.filter_cons, lineEvent] using ih
      | junk =>
          simpa [stream_from_ollama_output, List.filter_cons, lineEvent] using ih
      | event e =>
          simpa [stream_from_ollama_output, List.filter_cons, lineEvent] using ih

/-! Claim theorems. -/

/-- Claim C1 (code behaviour at the spec's scenario): on session `"abc"`
with message `"Hello"` and backend stream `{response:"Hi", done:false}`
then `{response:"", done:true, context:[1,2,3]}`, the client observes
both frames and the context commits to `[1,2,3]`, but the stored
assistant message is the terminal event's `response` field — the empty
string — not the accumulated text `"Hi"` that the spec requires. -/
theorem c1_terminal_response_stored :
    (chat_stream emptyStore "abc" (some "Hello")
        [Line.event ⟨some "Hi", some false, none⟩,
         Line.event ⟨some "", some true, some [1, 2, 3]⟩]).response =
      HttpResponse.sse [⟨some "Hi", some false, none⟩, ⟨some "", some true, some [1, 2, 3]⟩] ∧
    get_conversation (chat_stream emptyStore "abc" (some "Hello")
        [Line.event ⟨some "Hi", some false, none⟩,
         Line.event ⟨some "", some true, some [1, 2, 3]⟩]).store "abc" =
      [⟨"user", "Hello"⟩, ⟨"assistant", ""⟩] ∧
    get_context (chat_stream emptyStore "abc" (some "Hello")
        [Line.event ⟨some "Hi", some false, none⟩,
         Line.event ⟨some "", some true, some [1, 2, 3]⟩]).store "abc" =
      some [1, 2, 3] := by
  refine ⟨rfl, rfl, rfl⟩

/-- Claim C2: a missing, empty, or whitespace-only `message` makes the
handler return the 400 `{"error": "Empty message"}` response before any
streaming, with no store mutation and no backend request. -/
theorem c2_empty_message_rejected (st : Store) (session_id : String)
    (message : Option String) (backendLines : List Line)
    (h : pyStrip (message.getD "") = "") :
    chat_stream st session_id message backendLines =
      { response := .badRequest "Empty message", store := st,
        request := none, logs := [] } := by
  simp [chat_stream, h]

/-- Witness for C2 at a whitespace-only message. -/
theorem c2_empty_message_rejected_witness :
    pyStrip ((some "  ").getD "") = "" ∧
    chat_stream emptyStore "abc" (some "  ") [Line.event ⟨some "Hi", some true, some [1]⟩] =
      { response := .badRequest "Empty message", store := emptyStore,
        request := none, logs := [] } :=
  ⟨by rfl, c2_empty_message_rejected emptyStore "abc" (some "  ")
    [Line.event ⟨some "Hi", some true, some [1]⟩] (by rfl)⟩

/-- Claim C6: a non-JSON-parseable line from the transport is silently
dropped — removing it from the stream changes nothing observable about
the turn: same SSE frames, same final store, same request and logs. -/
theorem c6_junk_line_dropped (st : Store) (session_id : String) (message : Option String)
    (pre post : List Line) :
    chat_stream st session_id message (pre ++ Line.junk :: post) =
      chat_stream st session_id message (pre ++ post) := by
  by_cases h : pyStrip (message.getD "") = ""
  · simp [chat_stream, h]
  · rw [chat_stream_of_ne st session_id message _ h,
      chat_stream_of_ne st session_id message _ h]
    have hsplit : stream_from_ollama_output (pre ++ Line.junk :: post) =
        stream_from_ollama_output pre ++ Line.junk :: stream_from_ollama_output post := by
      simp [stream_from_ollama_output, List.filter_append, List.filter_cons]
    rw [hsplit, event_generator_drop_junk, stream_from_ollama_output_append]

/-- Claim C9: `ollama_node` never hits the out-of-bounds read when the
state's message list is non-empty, and then returns the input messages
with exactly the backend's reply (default `""` when the `response`
field is absent) appended. -/
theorem c9_ollama_node_appends_reply (state : ChatState) (result : GenResult)
    (h : state.messages ≠ []) :
    ∃ st', ollama_node state result = some st' ∧
      st'.messages = state.messages ++ [result.response.getD ""] := by
  cases hm : state.messages.getLast? with
  | none => exact absurd (List.getLast?_eq_none_iff.mp hm) h
  | some x =>
      refine ⟨{ messages := state.messages ++ [result.response.getD ""],
                context := result.context.or state.context }, ?_, rfl⟩
      simp [ollama_node, hm]

/-- Witness for C9. -/
theorem c9_ollama_node_appends_reply_witness :
    (ChatState.mk ["hi"] none).messages ≠ [] ∧
    ∃ st', ollama_node ⟨["hi"], none⟩ ⟨some "yo", none⟩ = some st' ∧
      st'.messages = (ChatState.mk ["hi"] none).messages ++ [(some "yo").getD ""] :=
  ⟨by decide, c9_ollama_node_appends_reply ⟨["hi"], none⟩ ⟨some "yo", none⟩ (by decide)⟩

/-- Claim C10: `POST /new_conversation` deletes any prior state under
the generated id and appends the single system message, so the fresh
session's log is exactly that one entry and the session is visible in
the conversation listing.  The id is `str(uuid.uuid4())` — hex digits
and hyphens only — captured by the colon-free hypothesis, under which
the listing's `k.split(":")[1]` returns the id unchanged. -/
theorem c10_new_conversation_seeds_log (st : Store) (session_id : String)
    (hsid : ':' ∉ session_id.toList) :
    get_conversation (new_conversation st session_id) session_id =
      [⟨"system", "New conversation started."⟩] ∧
    session_id ∈ list_conversations (new_conversation st session_id) := by
  constructor
  · rw [new_conversation, get_conversation_append_message_self]
    simp [get_conversation, delete_session, assocGet_assocErase_self]
  · have hget : assocGet (delete_session st session_id).sessions session_id = none :=
      assocGet_assocErase_self _ _
    have hmem : (session_id, ([⟨"system", "New conversation started."⟩] : List Message)) ∈
        (new_conversation st session_id).sessions := by
      have := self_mem_assocSet (delete_session st session_id).sessions session_id
        ((assocGet (delete_session st session_id).sessions session_id).getD [] ++
          [⟨"system", "New conversation started."⟩])
      simpa [new_conversation, append_message, hget] using this
    refine List.mem_map.mpr
      ⟨(session_id, [⟨"system", "New conversation started."⟩]), ?_, ?_⟩
    · exact List.mem_filter.mpr ⟨hmem, by simp⟩
    · exact listedName_eq_self session_id hsid

/-- Witness for C10 at a uuid4-shaped id. -/
theorem c10_new_conversation_seeds_log_witness :
    (':' ∉ "1b9d6bcd-bbfd-4b2d-9b5d-ab8dfbbd4bed".toList) ∧
    (get_conversation
        (new_conversation emptyStore "1b9d6bcd-bbfd-4b2d-9b5d-ab8dfbbd4bed")
        "1b9d6bcd-bbfd-4b2d-9b5d-ab8dfbbd4bed" =
      [⟨"system", "New conversation started."⟩] ∧
     "1b9d6bcd-bbfd-4b2d-9b5d-ab8dfbbd4bed" ∈ list_conversations
        (new_conversation emptyStore "1b9d6bcd-bbfd-4b2d-9b5d-ab8dfbbd4bed")) :=
  ⟨by decide, c10_new_conversation_seeds_log emptyStore
    "1b9d6bcd-bbfd-4b2d-9b5d-ab8dfbbd4bed" (by decide)⟩

/-- Operations addressed to other sessions never create state under `s`. -/
theorem applyOps_untouched (s : String) (ops : List StoreOp) (st : Store)
    (hc : assocGet st.contexts s = none) (hs : assocGet st.sessions s = none)
    (h : ∀ op ∈ ops, op.sid ≠ s) :
    assocGet (applyOps st ops).contexts s = none ∧
    assocGet (applyOps st ops).sessions s = none := by
  induction ops generalizing st with
  | nil => exact ⟨hc, hs⟩
  | cons op rest ih =>
      have hop : op.sid ≠ s := h op (by simp)
      have hrest : ∀ op' ∈ rest, op'.sid ≠ s := fun op' h' => h op' (by simp [h'])
      have step : assocGet (applyOp st op).contexts s = none ∧
          assocGet (applyOp st op).sessions s = none := by
        cases op with
        | setCtx k c =>
            simp only [StoreOp.sid] at hop
            exact ⟨by simpa [applyOp, set_context, assocGet_assocSet_ne _ _ _ _ hop]
              using hc, hs⟩
        | append k role content =>
            simp only [StoreOp.sid] at hop
            exact ⟨hc, by simpa [applyOp, append_message,
              assocGet_assocSet_ne _ _ _ _ hop] using hs⟩
        | del k =>
            exact ⟨assocGet_assocErase_of_none k hc, assocGet_assocErase_of_none k hs⟩
      have : applyOps st (op :: rest) = applyOps (applyOp st op) rest := rfl
      rw [this]
      exact ih (applyOp st op) step.1 step.2 hrest

/-- Counterexample to C8 as stated: `list_conversations` returns
`k.split(":")[1]`, the session id truncated at its first colon, so one
message on session `"abc:1"` makes the never-referenced id `"abc"`
appear in the listing even though its context is absent and its log
empty. -/
theorem c8_truncated_id_listed :
    (∀ op ∈ ([StoreOp.append "abc:1" "user" "hi"] : List StoreOp), op.sid ≠ "abc") ∧
    get_context (applyOps emptyStore [StoreOp.append "abc:1" "user" "hi"]) "abc" = none ∧
    get_conversation (applyOps emptyStore [StoreOp.append "abc:1" "user" "hi"]) "abc" = [] ∧
    "abc" ∈ list_conversations (applyOps emptyStore [StoreOp.append "abc:1" "user" "hi"]) := by
  refine ⟨by decide, rfl, rfl, ?_⟩
  decide

/-- Claim C8 (amended): after any sequence of store operations, none of
which touches session `s` and none of whose ids truncates to `s` at its
first colon, starting from the empty store: `get_context s` is absent,
`get_conversation s` is the empty sequence (not an error), and `s` is
not listed among the conversations. -/
theorem c8_fresh_session_empty (s : String) (ops : List StoreOp)
    (h : ∀ op ∈ ops, op.sid ≠ s)
    (hname : ∀ op ∈ ops, listedName op.sid ≠ s) :
    get_context (applyOps emptyStore ops) s = none ∧
    get_conversation (applyOps emptyStore ops) s = [] ∧
    s ∉ list_conversations (applyOps emptyStore ops) := by
  have inv := applyOps_untouched s ops emptyStore rfl rfl h
  refine ⟨inv.1, by simp [get_conversation, inv.2], ?_⟩
  intro hmem
  obtain ⟨p, hp, hps⟩ := List.mem_map.mp hmem
  have hp' : p ∈ (applyOps emptyStore ops).sessions := (List.mem_filter.mp hp).1
  rcases mem_sessions_applyOps ops emptyStore p hp' with hnil | ⟨op, hop, hsid⟩
  · simp [emptyStore] at hnil
  · exact hname op hop (by rw [hsid]; exact hps)

/-- Witness for the amended C8. -/
theorem c8_fresh_session_empty_witness :
    (∀ op ∈ ([StoreOp.setCtx "other" [1], StoreOp.append "other" "user" "hi"] :
        List StoreOp), op.sid ≠ "abc") ∧
    (∀ op ∈ ([StoreOp.setCtx "other" [1], StoreOp.append "other" "user" "hi"] :
        List StoreOp), listedName op.sid ≠ "abc") ∧
    (get_context (applyOps emptyStore
        [StoreOp.setCtx "other" [1], StoreOp.append "other" "user" "hi"]) "abc" = none ∧
     get_conversation (applyOps emptyStore
        [StoreOp.setCtx "other" [1], StoreOp.append "other" "user" "hi"]) "abc" = [] ∧
     "abc" ∉ list_conversations (applyOps emptyStore
        [StoreOp.setCtx "other" [1], StoreOp.append "other" "user" "hi"])) :=
  ⟨by decide, by decide, c8_fresh_session_empty "abc"
    [StoreOp.setCtx "other" [1], StoreOp.append "other" "user" "hi"]
    (by decide) (by decide)⟩

/-- Claim C3: when the backend stream ends (or fails) without a truthy
`done` event, the turn writes no context and no assistant message: the
context keys are exactly as before the turn and the session's log gains
exactly the user message appended at turn start. -/
theorem c3_no_terminal_no_commit (st : Store) (session_id : String)
    (message : Option String) (backendLines : List Line)
    (hp : pyStrip (message.getD "") ≠ "")
    (h : ∀ l ∈ backendLines, lineDone l = false) :
    (chat_stream st session_id message backendLines).store.contexts = st.contexts ∧
    get_conversation (chat_stream st session_id message backendLines).store session_id =
      get_conversation st session_id ++ [⟨"user", pyStrip (message.getD "")⟩] := by
  have hfil : ∀ l ∈ stream_from_ollama_output backendLines, lineDone l = false :=
    fun l hl => h l (List.mem_of_mem_filter hl)
  have hstore : (chat_stream st session_id message backendLines).store =
      append_message st session_id "user" (pyStrip (message.getD "")) := by
    rw [chat_stream_of_ne st session_id message backendLines hp]
    exact event_generator_store_no_done _ _ _ hfil
  rw [hstore]
  exact ⟨rfl, get_conversation_append_message_self st session_id "user" _⟩

/-- Witness for C3. -/
theorem c3_no_terminal_no_commit_witness :
    pyStrip ((some "Hello").getD "") ≠ "" ∧
    (∀ l ∈ [Line.event ⟨some "Hi", some false, none⟩, Line.junk], lineDone l = false) ∧
    ((chat_stream emptyStore "abc" (some "Hello")
        [Line.event ⟨some "Hi", some false, none⟩, Line.junk]).store.contexts =
      emptyStore.contexts ∧
     get_conversation (chat_stream emptyStore "abc" (some "Hello")
        [Line.event ⟨some "Hi", some false, none⟩, Line.junk]).store "abc" =
      get_conversation emptyStore "abc" ++ [⟨"user", pyStrip ((some "Hello").getD "")⟩]) :=
  ⟨by decide, by decide, c3_no_terminal_no_commit emptyStore "abc" (some "Hello")
    [Line.event ⟨some "Hi", some false, none⟩, Line.junk] (by decide) (by decide)⟩

/-- Claim C5: the SSE frames a turn emits are exactly one frame per
JSON-parseable line the transport delivered, carrying the encoded
event, in the backend's emission order — no reordering, duplication, or
accumulation. -/
theorem c5_one_frame_per_event (st : Store) (session_id : String)
    (message : Option String) (backendLines : List Line)
    (hp : pyStrip (message.getD "") ≠ "") :
    (chat_stream st session_id message backendLines).response =
      HttpResponse.sse (backendLines.filterMap lineEvent) := by
  rw [chat_stream_of_ne st session_id message backendLines hp]
  simp only [event_generator_frames, filterMap_lineEvent_stream_output]

/-- Witness for C5. -/
theorem c5_one_frame_per_event_witness :
    pyStrip ((some "Hello").getD "") ≠ "" ∧
    (chat_stream emptyStore "abc" (some "Hello")
        [Line.blank, Line.event ⟨some "Hi", some false, none⟩, Line.junk,
         Line.event ⟨some "", some true, some [1, 2, 3]⟩]).response =
      HttpResponse.sse ([Line.blank, Line.event ⟨some "Hi", some false, none⟩, Line.junk,
         Line.event ⟨some "", some true, some [1, 2, 3]⟩].filterMap lineEvent) :=
  ⟨by decide, c5_one_frame_per_event emptyStore "abc" (some "Hello")
    [Line.blank, Line.event ⟨some "Hi", some false, none⟩, Line.junk,
     Line.event ⟨some "", some true, some [1, 2, 3]⟩] (by decide)⟩

/-- Counterexample to C4 as stated: when the first turn's terminal
event carries the empty context `[]`, the second turn's request payload
does not include a `context` field at all (the truthiness guards
`if new_context:` and `if context:` both drop an empty list), so the
payload context is not equal to the committed empty sequence. -/
theorem c4_empty_context_not_forwarded :
    (chat_stream
        (chat_stream emptyStore "abc" (some "Hello")
          [Line.event ⟨some "", some true, some []⟩]).store
        "abc" (some "Again") []).request =
      some { model := "phi3", prompt := "Again", stream := true, context := none } := by
  rfl

/-- Claim C4 (amended): for every terminal context `c` that is not the
empty sequence, a second turn on the same session sends a request
payload whose `context` field equals `c`. -/
theorem c4_nonempty_context_forwarded (st : Store) (session_id : String)
    (m1 m2 : Option String) (pre : List Line) (resp : Option String) (c : List Int)
    (lines2 : List Line)
    (h1 : pyStrip (m1.getD "") ≠ "") (h2 : pyStrip (m2.getD "") ≠ "")
    (hc : c ≠ []) (hpre : ∀ l ∈ pre, lineDone l = false) :
    (chat_stream
        (chat_stream st session_id m1 (pre ++ [Line.event ⟨resp, some true, some c⟩])).store
        session_id m2 lines2).request =
      some { model := OLLAMA_MODEL, prompt := pyStrip (m2.getD ""), stream := true,
             context := some c } := by
  have hnd := event_generator_store_no_done session_id
    (append_message st session_id "user" (pyStrip (m1.getD "")))
    (stream_from_ollama_output pre)
    (fun l hl => hpre l (List.mem_of_mem_filter hl))
  have hstore1 : (chat_stream st session_id m1
        (pre ++ [Line.event ⟨resp, some true, some c⟩])).store =
      append_message
        (set_context (append_message st session_id "user" (pyStrip (m1.getD "")))
          session_id c)
        session_id "assistant" (resp.getD "") := by
    rw [chat_stream_of_ne _ _ _ _ h1]
    simp [stream_from_ollama_output_append, stream_from_ollama_output_event,
      event_generator_append, hnd, event_generator, lineEvent, commit_if_done, hc]
  have hctx : get_context (chat_stream st session_id m1
        (pre ++ [Line.event ⟨resp, some true, some c⟩])).store session_id = some c := by
    rw [hstore1, get_context_append_message, get_context_set_context_self]
  rw [chat_stream_of_ne _ _ _ _ h2]
  simp [stream_from_ollama_payload, truthyCtx, get_context_append_message, hctx, hc]

/-- Witness for the amended C4. -/
theorem c4_nonempty_context_forwarded_witness :
    pyStrip ((some "Hello").getD "") ≠ "" ∧
    pyStrip ((some "Again").getD "") ≠ "" ∧
    ([5] : List Int) ≠ [] ∧
    (∀ l ∈ ([] : List Line), lineDone l = false) ∧
    (chat_stream
        (chat_stream emptyStore "abc" (some "Hello")
          ([] ++ [Line.event ⟨some "", some true, some [5]⟩])).store
        "abc" (some "Again") []).request =
      some { model := OLLAMA_MODEL, prompt := pyStrip ((some "Again").getD ""),
             stream := true, context := some [5] } :=
  ⟨by decide, by decide, by decide, by decide,
   c4_nonempty_context_forwarded emptyStore "abc" (some "Hello") (some "Again") []
     (some "") [5] [] (by decide) (by decide) (by decide) (by decide)⟩

/-- Counterexample to C7 as stated: the handler contains no logging
statement, so on a terminal event with a missing `context` the relay
logs nothing — the claim's "logs the anomaly" clause fails at this
input (the state-related clauses do hold, see the amended theorem). -/
theorem c7_no_log_emitted :
    (chat_stream emptyStore "abc" (some "Hello")
        [Line.event ⟨some "Hi", some true, none⟩]).logs = [] := by
  rfl

/-- Claim C7 (amended): a `done:true` event with a missing (or null)
`context` leaves the stored context exactly as it was, still appends
the assistant message (the terminal event's `response` field) so the
turn commits, and produces no log output (the code does not log the
anomaly). -/
theorem c7_missing_context_commits (st : Store) (session_id : String)
    (message : Option String) (pre : List Line) (resp : Option String)
    (hp : pyStrip (message.getD "") ≠ "")
    (hpre : ∀ l ∈ pre, lineDone l = false) :
    (chat_stream st session_id message
        (pre ++ [Line.event ⟨resp, some true, none⟩])).store.contexts = st.contexts ∧
    get_conversation (chat_stream st session_id message
        (pre ++ [Line.event ⟨resp, some true, none⟩])).store session_id =
      get_conversation st session_id ++
        [⟨"user", pyStrip (message.getD "")⟩, ⟨"assistant", resp.getD ""⟩] ∧
    (chat_stream st session_id message
        (pre ++ [Line.event ⟨resp, some true, none⟩])).logs = [] := by
  have hnd := event_generator_store_no_done session_id
    (append_message st session_id "user" (pyStrip (message.getD "")))
    (stream_from_ollama_output pre)
    (fun l hl => hpre l (List.mem_of_mem_filter hl))
  have hstore : (chat_stream st session_id message
        (pre ++ [Line.event ⟨resp, some true, none⟩])).store =
      append_message (append_message st session_id "user" (pyStrip (message.getD "")))
        session_id "assistant" (resp.getD "") := by
    rw [chat_stream_of_ne _ _ _ _ hp]
    simp [stream_from_ollama_output_append, stream_from_ollama_output_event,
      event_generator_append, hnd, event_generator, lineEvent, commit_if_done]
  refine ⟨?_, ?_, ?_⟩
  · rw [hstore]
    rfl
  · rw [hstore, get_conversation_append_message_self, get_conversation_append_message_self]
    simp
  · rw [chat_stream_of_ne _ _ _ _ hp]

/-- Witness for the amended C7. -/
theorem c7_missing_context_commits_witness :
    pyStrip ((some "Hello").getD "") ≠ "" ∧
    (∀ l ∈ [Line.event ⟨some "Hi", some false, none⟩], lineDone l = false) ∧
    ((chat_stream emptyStore "abc" (some "Hello")
        ([Line.event ⟨some "Hi", some false, none⟩] ++
          [Line.event ⟨some "", some true, none⟩])).store.contexts =
      emptyStore.contexts ∧
     get_conversation (chat_stream emptyStore "abc" (some "Hello")
        ([Line.event ⟨some "Hi", some false, none⟩] ++
          [Line.event ⟨some "", some true, none⟩])).store "abc" =
      get_conversation emptyStore "abc" ++
        [⟨"user", pyStrip ((some "Hello").getD "")⟩, ⟨"assistant", (some "").getD ""⟩] ∧
     (chat_stream emptyStore "abc" (some "Hello")
        ([Line.event ⟨some "Hi", some false, none⟩] ++
          [Line.event ⟨some "", some true, none⟩])).logs = []) :=
  ⟨by decide, by decide,
   c7_missing_context_commits emptyStore "abc" (some "Hello")
     [Line.event ⟨some "Hi", some false, none⟩] (some "") (by decide) (by decide)⟩

end OllamaRelay
